import Mathlib

/-!
Verification of the ImageProcessor repository's viewport-transform and
edit-history engine, shallowly embedded from `src/ui/main_window.py` and
`src/image_tools.py`.  Real (Python float) arithmetic is modelled by exact
rationals; Python `int()` / `round()` / `//` and the C++ (Qt) integer
operations are modelled exactly.
-/

namespace ImageProc

/-- Python `int()` on a real value: truncation toward zero. -/
def pyInt (q : ℚ) : ℤ := if 0 ≤ q then ⌊q⌋ else ⌈q⌉

/-- Python `round()` on a real value: round half to even (banker's rounding). -/
def pyRound (q : ℚ) : ℤ :=
  let f := ⌊q⌋
  let r := q - (f : ℚ)
  if r < 1/2 then f
  else if 1/2 < r then f + 1
  else if f % 2 = 0 then f else f + 1

/-- Python `abs()` on a real value. -/
def pyAbs (q : ℚ) : ℚ := if q < 0 then -q else q

/-- Python `//` on integers: floor division. -/
def pyFloorDiv (a b : ℤ) : ℤ := ⌊(a : ℚ) / (b : ℚ)⌋

/-- C++ (Qt) integer division: truncation toward zero (used by `QRect.center`). -/
def cppDiv (a b : ℤ) : ℤ := pyInt ((a : ℚ) / (b : ℚ))

/-- Dimensions of `QPixmap.scaled((sw, sh), KeepAspectRatio)` for a source pixmap of
size `w × h`: an empty target or a null source gives a null pixmap; otherwise Qt's
`QSize.scaled` fits the target while keeping the aspect ratio (integer arithmetic,
`rw = sh*w/h`), and the result is clamped to at least 1×1. -/
def qtScaledDims (w h sw sh : ℤ) : ℤ × ℤ :=
  if w ≤ 0 ∨ h ≤ 0 then (0, 0)
  else if sw ≤ 0 ∨ sh ≤ 0 then (0, 0)
  else
    let rw := ⌊(sh * w : ℚ) / (h : ℚ)⌋
    let p := if rw ≤ sw then (rw, sh) else (sw, ⌊(sw * h : ℚ) / (w : ℚ)⌋)
    (max p.1 1, max p.2 1)

/-- View state of `CropLabel`: the loaded original pixmap's dimensions (if any),
zoom factor, pan offset, preview rotation angle, and the label's contents size. -/
structure LabelState where
  pix : Option (ℤ × ℤ)
  zoom : ℚ
  offX : ℚ
  offY : ℚ
  rot : ℚ
  labelW : ℤ
  labelH : ℤ
deriving DecidableEq, Repr

/-- `CropLabel.screen_to_image_coords` (main_window.py lines 646-690): `None` when no
image is loaded; otherwise computes the displayed bitmap's top-left from
`(label - scaled)/2 + offset`, inverts the scale map, rounds, and clamps into
`[0, w-1] × [0, h-1]`; returns `None` when the scaled pixmap is empty. -/
def screen_to_image_coords (st : LabelState) (sx sy : ℤ) : Option (ℤ × ℤ) :=
  match st.pix with
  | none => none
  | some wh =>
    let w := wh.1
    let h := wh.2
    let sw := pyInt ((w : ℚ) * st.zoom)
    let sh := pyInt ((h : ℚ) * st.zoom)
    let sp := qtScaledDims w h sw sh
    let imgX : ℚ := (pyFloorDiv (st.labelW - sp.1) 2 : ℤ) + st.offX
    let imgY : ℚ := (pyFloorDiv (st.labelH - sp.2) 2 : ℤ) + st.offY
    if 0 < sp.1 ∧ 0 < sp.2 then
      let ox := pyRound (((sx : ℚ) - imgX) / (sp.1 : ℚ) * (w : ℚ))
      let oy := pyRound (((sy : ℚ) - imgY) / (sp.2 : ℚ) * (h : ℚ))
      some (max 0 (min ox (w - 1)), max 0 (min oy (h - 1)))
    else none

/-- The zoom factor `zoom_at_point` moves to: 10% in or out, clamped to `[0.1, 10]`. -/
def nextZoom (z : ℚ) (zoomIn : Bool) : ℚ :=
  max (1/10) (min 10 (if zoomIn then z * (11/10) else z * (9/10)))

/-- `CropLabel.zoom_at_point` (main_window.py lines 935-1001): pivot-preserving zoom.
No-op without an image or when the clamped new zoom differs by less than 0.001.
Otherwise keeps the image-space ratio of the pivot within the old scaled bitmap
(computed from `int(w*zoom)`, not from the displayed pixmap) fixed at the pivot. -/
def zoom_at_point (st : LabelState) (px py : ℤ) (zoomIn : Bool) : LabelState :=
  match st.pix with
  | none => st
  | some wh =>
    let w := wh.1
    let h := wh.2
    let nz := nextZoom st.zoom zoomIn
    if pyAbs (nz - st.zoom) < 1/1000 then st
    else
      let sw := pyInt ((w : ℚ) * st.zoom)
      let sh := pyInt ((h : ℚ) * st.zoom)
      let imgX : ℚ := (pyFloorDiv (st.labelW - sw) 2 : ℤ) + st.offX
      let imgY : ℚ := (pyFloorDiv (st.labelH - sh) 2 : ℤ) + st.offY
      let ratioX : ℚ := if 0 < sw ∧ 0 < sh then ((px : ℚ) - imgX) / (sw : ℚ) else 1/2
      let ratioY : ℚ := if 0 < sw ∧ 0 < sh then ((py : ℚ) - imgY) / (sh : ℚ) else 1/2
      let nsw := pyInt ((w : ℚ) * nz)
      let nsh := pyInt ((h : ℚ) * nz)
      { st with
        zoom := nz
        offX := ((px : ℚ) - ratioX * (nsw : ℚ)) - (pyFloorDiv (st.labelW - nsw) 2 : ℤ)
        offY := ((py : ℚ) - ratioY * (nsh : ℚ)) - (pyFloorDiv (st.labelH - nsh) 2 : ℤ) }

/-- The floating-point aspect adjustment of `screen_rect_to_image_rect`
(main_window.py lines 744-754): if the ratio is off by more than 0.001,
shrink one side so that `w/h` equals the locked ratio exactly (still real-valued). -/
def aspectAdjustFloat (aspect : Option ℚ) (w h : ℚ) : ℚ × ℚ :=
  match aspect with
  | none => (w, h)
  | some a =>
    let cr := if 0 < h then w / h else 0
    if 1/1000 < pyAbs (cr - a) then
      if a < w / h then (h * a, h) else (w, w / a)
    else (w, h)

/-- Position shift of `screen_rect_to_image_rect` (lines 772-781): move the
rectangle back inside the image, keeping its size. -/
def boundShift (w h wi hi l t : ℤ) : ℤ × ℤ :=
  (if l < 0 then 0 else if w < l + wi then w - wi else l,
   if t < 0 then 0 else if h < t + hi then h - hi else t)

/-- Size shrink of `screen_rect_to_image_rect` (lines 783-802): if still out of
bounds, shrink the size, re-deriving the other side from the locked ratio. -/
def boundShrink (w h : ℤ) (aspect : Option ℚ) (l t wi hi : ℤ) : ℤ × ℤ × ℤ × ℤ :=
  let l2 := if l < 0 then 0 else l
  let p :=
    if w < l2 + wi then
      let w2 := w - l2
      (w2, match aspect with
        | some a => pyRound ((w2 : ℚ) / a)
        | none => hi)
    else (wi, hi)
  let t2 := if t < 0 then 0 else t
  let q :=
    if h < t2 + p.2 then
      let h2 := h - t2
      match aspect with
      | some a =>
        let w3 := pyRound ((h2 : ℚ) * a)
        if w < l2 + w3 then
          let w4 := w - l2
          (w4, pyRound ((w4 : ℚ) / a))
        else (w3, h2)
      | none => (p.1, h2)
    else p
  (l2, t2, q.1, q.2)

/-- Final boundary clamp of `screen_rect_to_image_rect` (lines 804-808). -/
def clampStage (w h l t wi hi : ℤ) : ℤ × ℤ × ℤ × ℤ :=
  let l2 := max 0 (min l (w - 1))
  let t2 := max 0 (min t (h - 1))
  (l2, t2, max 1 (min wi (w - l2)), max 1 (min hi (h - t2)))

/-- Final ratio re-check of `screen_rect_to_image_rect` (lines 810-824): if the
rounded integer rectangle's ratio is off by more than 0.01, recompute one side
from the other, shrinking against the image bounds. -/
def finalRatioFix (w h : ℤ) (aspect : Option ℚ) (r : ℤ × ℤ × ℤ × ℤ) : ℤ × ℤ × ℤ × ℤ :=
  match aspect with
  | none => r
  | some a =>
    let l := r.1
    let t := r.2.1
    let wi := r.2.2.1
    let hi := r.2.2.2
    if 0 < hi then
      let cr : ℚ := (wi : ℚ) / (hi : ℚ)
      if 1/100 < pyAbs (cr - a) then
        if a < cr then
          let w2 := pyRound ((hi : ℚ) * a)
          if w < l + w2 then
            let w3 := w - l
            (l, t, w3, pyRound ((w3 : ℚ) / a))
          else (l, t, w2, hi)
        else
          let h2 := pyRound ((wi : ℚ) / a)
          if h < t + h2 then
            let h3 := h - t
            (l, t, pyRound ((h3 : ℚ) * a), h3)
          else (l, t, wi, h2)
      else r
    else r

/-- `CropLabel.screen_rect_to_image_rect` (main_window.py lines 692-828): convert a
committed screen-space selection rectangle (given by its normalized inclusive
corners, Qt `QRect` semantics: `width = x2-x1+1`, `center = ((x1+x2)/2, (y1+y2)/2)`
with C++ truncating division) to an image-space rectangle `(left, top, width,
height)`, preserving the optional locked aspect ratio. -/
def screen_rect_to_image_rect (st : LabelState) (aspect : Option ℚ)
    (x1 y1 x2 y2 : ℤ) : Option (ℤ × ℤ × ℤ × ℤ) :=
  match st.pix with
  | none => none
  | some wh =>
    let w := wh.1
    let h := wh.2
    let sw := pyInt ((w : ℚ) * st.zoom)
    let sh := pyInt ((h : ℚ) * st.zoom)
    let sp := qtScaledDims w h sw sh
    let imgX : ℚ := (pyFloorDiv (st.labelW - sp.1) 2 : ℤ) + st.offX
    let imgY : ℚ := (pyFloorDiv (st.labelH - sp.2) 2 : ℤ) + st.offY
    let scx : ℚ := (cppDiv (x1 + x2) 2 : ℤ) - imgX
    let scy : ℚ := (cppDiv (y1 + y2) 2 : ℤ) - imgY
    let sWi : ℤ := x2 - x1 + 1
    let sHi : ℤ := y2 - y1 + 1
    if scx < 0 ∨ (sp.1 : ℚ) < scx ∨ scy < 0 ∨ (sp.2 : ℚ) < scy then none
    else if 0 < sp.1 ∧ 0 < sp.2 then
      let icx : ℚ := scx / (sp.1 : ℚ) * (w : ℚ)
      let icy : ℚ := scy / (sp.2 : ℚ) * (h : ℚ)
      let p := aspectAdjustFloat aspect ((sWi : ℚ) / (sp.1 : ℚ) * (w : ℚ))
        ((sHi : ℚ) / (sp.2 : ℚ) * (h : ℚ))
      let w1 := pyRound p.1
      let h1 := pyRound p.2
      if w1 ≤ 0 ∨ h1 ≤ 0 then none
      else
        let l1 := pyRound (icx - (w1 : ℚ) / 2)
        let t1 := pyRound (icy - (h1 : ℚ) / 2)
        let s1 := boundShift w h w1 h1 l1 t1
        let s2 := boundShrink w h aspect s1.1 s1.2 w1 h1
        let c := clampStage w h s2.1 s2.2.1 s2.2.2.1 s2.2.2.2
        some (finalRatioFix w h aspect c)
    else none

/-! ## Edit history (MainWindow.push_history / undo / redo) -/

/-- `self.max_history = 10` (main_window.py line 1246). -/
def maxHistory : ℕ := 10

/-- The stack update used by `push_history`, `undo` and `redo`
(`append` then `pop(0)` when the length exceeds `max_history`). -/
def histPush {α : Type} (hist : List α) (x : α) : List α :=
  let h2 := hist ++ [x]
  if maxHistory < h2.length then h2.tail else h2

/-- Session history state: the current image, the undo stack (`self.history`)
and the redo stack (`self.redo_history`). -/
structure HState (α : Type) where
  cur : Option α
  hist : List α
  redoHist : List α
deriving DecidableEq, Repr

/-- `MainWindow.push_history` (lines 1923-1930): when an image is loaded, append a
copy of it to the undo stack, evict the oldest entry past `max_history`, and
clear the redo history. -/
def push_history {α : Type} (s : HState α) : HState α :=
  match s.cur with
  | none => s
  | some c => { s with hist := histPush s.hist c, redoHist := [] }

/-- `MainWindow.undo` (lines 2367-2378).  The returned flag is `true` when the
"nothing to undo" message was shown (and the state left unchanged). -/
def undoStep {α : Type} (s : HState α) : HState α × Bool :=
  match s.hist.getLast? with
  | none => (s, true)
  | some last =>
    let redo2 := match s.cur with
      | some c => histPush s.redoHist c
      | none => s.redoHist
    ({ cur := some last, hist := s.hist.dropLast, redoHist := redo2 }, false)

/-- `MainWindow.redo` (lines 2381-2392), symmetric to `undoStep`; the flag is
`true` when the "nothing to redo" message was shown. -/
def redoStep {α : Type} (s : HState α) : HState α × Bool :=
  match s.redoHist.getLast? with
  | none => (s, true)
  | some last =>
    let hist2 := match s.cur with
      | some c => histPush s.hist c
      | none => s.hist
    ({ cur := some last, hist := hist2, redoHist := s.redoHist.dropLast }, false)

/-- A user action on the history machine: a completed edit producing image `res`
(push of the current image followed by the commit of the result), an undo, or a
redo. -/
inductive HistOp (α : Type) : Type where
  | edit (res : α)
  | undo
  | redo
deriving DecidableEq, Repr

/-- One step of the session history machine.  An edit is rejected when no image
is loaded (the `if self.current_image is None: return` guard of every
`apply_*`); otherwise it pushes the current image and commits the result. -/
def applyOp {α : Type} (s : HState α) : HistOp α → HState α
  | .edit r =>
    match s.cur with
    | none => s
    | some c => { cur := some r, hist := histPush s.hist c, redoHist := [] }
  | .undo => (undoStep s).1
  | .redo => (redoStep s).1

/-- Run a sequence of history-machine steps. -/
def applyOps {α : Type} (s : HState α) (ops : List (HistOp α)) : HState α :=
  ops.foldl applyOp s

/-! ## Crop (ImageTools.crop, MainWindow.apply_crop / apply_crop_rect) -/

/-- Size of the image produced by `ImageTools.crop` (image_tools.py lines 25-35)
on a `w × h` image: clamp `left/top` into the image, clamp `right/bottom` to at
least one pixel past them and at most the image edge; PIL's `crop((l,t,r,b))`
returns an `(r-l) × (b-t)` image. -/
def cropDims (w h left top wi hi : ℤ) : ℤ × ℤ :=
  let right := left + wi
  let bottom := top + hi
  let l := max 0 (min left (w - 1))
  let t := max 0 (min top (h - 1))
  let r := max (l + 1) (min right w)
  let b := max (t + 1) (min bottom h)
  (r - l, b - t)

/-- `MainWindow.apply_crop_rect` (lines 2177-2192), with images tracked by their
dimensions: boundary-protect the requested rectangle against the current image,
push history, and commit the cropped image synchronously. -/
def apply_crop_rect (s : HState (ℤ × ℤ)) (left top wi hi : ℤ) : HState (ℤ × ℤ) :=
  match s.cur with
  | none => s
  | some wh =>
    let w := wh.1
    let h := wh.2
    let l := max 0 (min left (w - 1))
    let t := max 0 (min top (h - 1))
    let w2 := max 1 (min wi (w - l))
    let h2 := max 1 (min hi (h - t))
    { cur := some (cropDims w h l t w2 h2)
      hist := histPush s.hist wh
      redoHist := [] }

/-- `MainWindow.apply_crop` (lines 2162-2175): the four text fields parsed by
`int(...)`, modelled as `Option ℤ` (`none` = non-numeric, `ValueError`).  The
flag is `true` when the "invalid crop parameters" warning was shown. -/
def apply_crop (s : HState (ℤ × ℤ)) (leftT topT wT hT : Option ℤ) :
    HState (ℤ × ℤ) × Bool :=
  match s.cur with
  | none => (s, false)
  | some _ =>
    match leftT, topT, wT, hT with
    | some l, some t, some wi, some hi => (apply_crop_rect s l t wi hi, false)
    | _, _, _, _ => (s, true)

/-! ## Scale (ImageTools.scale) -/

/-- Size of the image produced by `ImageTools.scale` (image_tools.py lines 13-18):
`resize((max(1, int(w*factor)), max(1, int(h*factor))))`. -/
def scaleDims (w h : ℤ) (factor : ℚ) : ℤ × ℤ :=
  (max 1 (pyInt ((w : ℚ) * factor)), max 1 (pyInt ((h : ℚ) * factor)))

/-! ## Worker dispatch (MainWindow.apply_scale / apply_rotate / ...,
WorkerThread, on_worker_finished) -/

/-- Session state including the in-flight worker threads.  `pendingResults`
lists the results the started-but-unfinished `WorkerThread`s will deliver, in
order.  (`self.worker` only keeps a reference to the most recently started
thread; overwriting it does not stop earlier threads, whose `finished_image`
signals stay connected to `on_worker_finished`.) -/
structure WSession (α : Type) where
  cur : Option α
  hist : List α
  redoHist : List α
  pendingResults : List α
deriving DecidableEq, Repr

/-- An observable session event: an edit request (`apply_scale`, `apply_rotate`,
`apply_watermark`, `apply_filter`, ... with the given eventual result), or the
completion of the oldest in-flight worker. -/
inductive SEvent (α : Type) : Type where
  | requestEdit (res : α)
  | workerDone
deriving DecidableEq, Repr

/-- One step of the asynchronous edit session.  An edit request with an image
loaded pushes history, clears the redo stack, and starts a worker immediately —
there is no join/wait on a previously started worker (main_window.py lines
2142-2148: `push_history(); self.worker = WorkerThread(...); self.worker.start()`).
`workerDone` models `on_worker_finished`: the finished worker's result becomes
the current image. -/
def sessionStep {α : Type} (s : WSession α) : SEvent α → WSession α
  | .requestEdit r =>
    match s.cur with
    | none => s
    | some c =>
      { s with
        hist := histPush s.hist c
        redoHist := []
        pendingResults := s.pendingResults ++ [r] }
  | .workerDone =>
    match s.pendingResults with
    | [] => s
    | r :: rest => { s with cur := some r, pendingResults := rest }

/-- Run a sequence of session events. -/
def sessionRun {α : Type} (s : WSession α) (es : List (SEvent α)) : WSession α :=
  es.foldl sessionStep s

/-! ## The commit path (MainWindow.on_worker_finished → update_preview) -/

/-- `CropLabel.set_original_pixmap` (main_window.py lines 1003-1010): install a
new pixmap and reset zoom to 1.0, pan offset to (0,0), preview rotation to 0. -/
def set_original_pixmap (st : LabelState) (pix : Option (ℤ × ℤ)) : LabelState :=
  { st with pix := pix, zoom := 1, offX := 0, offY := 0, rot := 0 }

/-- `CropLabel.set_preview_rotate_angle` (lines 1012-1015). -/
def set_preview_rotate_angle (st : LabelState) (angle : ℚ) : LabelState :=
  { st with rot := angle }

/-- `CropLabel.set_zoom_factor` (lines 1017-1074): zoom about the label centre.
No-op without an image or when the clamped new zoom differs from the current one
by less than 0.001. -/
def set_zoom_factor (st : LabelState) (zf0 : ℚ) : LabelState :=
  match st.pix with
  | none => st
  | some wh =>
    let w := wh.1
    let h := wh.2
    let zf := max (1/10) (min 10 zf0)
    if pyAbs (zf - st.zoom) < 1/1000 then st
    else
      let sw := pyInt ((w : ℚ) * st.zoom)
      let sh := pyInt ((h : ℚ) * st.zoom)
      let imgX : ℚ := (pyFloorDiv (st.labelW - sw) 2 : ℤ) + st.offX
      let imgY : ℚ := (pyFloorDiv (st.labelH - sh) 2 : ℤ) + st.offY
      let cx : ℚ := (st.labelW : ℚ) / 2
      let cy : ℚ := (st.labelH : ℚ) / 2
      let ratioX : ℚ := if 0 < sw ∧ 0 < sh then (cx - imgX) / (sw : ℚ) else 1/2
      let ratioY : ℚ := if 0 < sw ∧ 0 < sh then (cy - imgY) / (sh : ℚ) else 1/2
      let nsw := pyInt ((w : ℚ) * zf)
      let nsh := pyInt ((h : ℚ) * zf)
      { st with
        zoom := zf
        offX := (cx - ratioX * (nsw : ℚ)) - (pyFloorDiv (st.labelW - nsw) 2 : ℤ)
        offY := (cy - ratioY * (nsh : ℚ)) - (pyFloorDiv (st.labelH - nsh) 2 : ℤ) }

/-- The application state that the commit path touches: the current image, the
preview label's view state, and the two widgets `update_preview` reads back
(the scale slider's percent value and the rotation spin box's angle). -/
structure AppState where
  cur : Option (ℤ × ℤ)
  label : LabelState
  slider : ℤ
  rotSpin : ℤ
deriving DecidableEq, Repr

/-- `MainWindow.update_preview` (lines 1938-1967), restricted to the fields of
`AppState`: re-set the original pixmap (which resets zoom/pan/rotation), then
re-apply the slider's zoom when it is not 100% and the spin box's rotation when
it is not 0. -/
def update_preview (s : AppState) : AppState :=
  match s.cur with
  | none => { s with label := set_original_pixmap s.label none }
  | some img =>
    let l1 := set_original_pixmap s.label (some img)
    let l2 := if s.slider ≠ 100 then set_zoom_factor l1 ((s.slider : ℚ) / 100) else l1
    let l3 := if s.rotSpin ≠ 0 then set_preview_rotate_angle l2 (s.rotSpin : ℚ) else l2
    { s with label := l3 }

/-- `MainWindow.on_worker_finished` (lines 2522-2525): commit the worker's
result as the current image and refresh the preview. -/
def on_worker_finished (s : AppState) (img : ℤ × ℤ) : AppState :=
  update_preview { s with cur := some img }

/-- Both history stacks respect the depth bound. -/
def histBounded {α : Type} (s : HState α) : Prop :=
  s.hist.length ≤ maxHistory ∧ s.redoHist.length ≤ maxHistory

/-! ## Helper lemmas -/

theorem histPush_length_le {α : Type} {hist : List α} (x : α)
    (h : hist.length ≤ maxHistory) : (histPush hist x).length ≤ maxHistory := by
  simp only [histPush]
  split <;> rename_i hc <;>
    simp only [List.length_tail, List.length_append, List.length_singleton] at hc ⊢ <;>
    omega

theorem histPush_getLast {α : Type} (hist : List α) (x : α) :
    (histPush hist x).getLast? = some x := by
  simp only [histPush]
  split
  · rename_i hlen
    cases hist with
    | nil => simp [maxHistory] at hlen
    | cons y ys => simp [List.getLast?_concat]
  · simp [List.getLast?_concat]

theorem histPush_foldl_drop {α : Type} (xs : List α) :
    List.foldl histPush ([] : List α) xs = xs.drop (xs.length - maxHistory) := by
  induction xs using List.reverseRecOn with
  | nil => simp
  | append_singleton xs a ih =>
    rw [List.foldl_append, List.foldl_cons, List.foldl_nil, ih]
    by_cases hlen : xs.length + 1 ≤ maxHistory
    · have h0 : xs.length - maxHistory = 0 := by omega
      have h1 : (xs ++ [a]).length - maxHistory = 0 := by simp; omega
      rw [h0, h1, List.drop_zero, List.drop_zero]
      simp only [histPush, List.length_append, List.length_singleton]
      rw [if_neg (by omega)]
    · have hlendrop : (xs.drop (xs.length - maxHistory)).length = maxHistory := by
        simp only [List.length_drop]
        omega
      simp only [histPush]
      rw [if_pos (by simp [hlendrop])]
      have hconc : xs.drop (xs.length - maxHistory) ++ [a] = (xs ++ [a]).drop (xs.length - maxHistory) := by
        rw [List.drop_append_eq_append_drop]
        have : xs.length - maxHistory - xs.length = 0 := by omega
        rw [this]
        simp
      rw [hconc, List.tail_drop]
      congr 1
      simp only [List.length_append, List.length_singleton]
      omega

theorem applyOp_bounded {α : Type} {s : HState α} (op : HistOp α)
    (h : histBounded s) : histBounded (applyOp s op) := by
  obtain ⟨h1, h2⟩ := h
  cases op with
  | edit r =>
    cases hc : s.cur with
    | none => simpa [applyOp, hc] using ⟨h1, h2⟩
    | some c =>
      refine ⟨?_, ?_⟩ <;> simp only [applyOp, hc]
      · exact histPush_length_le c h1
      · simp [maxHistory]
  | undo =>
    simp only [applyOp, undoStep]
    cases hl : s.hist.getLast? with
    | none => exact ⟨h1, h2⟩
    | some last =>
      refine ⟨?_, ?_⟩
      · simp only [List.length_dropLast]
        omega
      · cases hc : s.cur with
        | none => simpa using h2
        | some c => simpa using histPush_length_le c h2
  | redo =>
    simp only [applyOp, redoStep]
    cases hl : s.redoHist.getLast? with
    | none => exact ⟨h1, h2⟩
    | some last =>
      refine ⟨?_, ?_⟩
      · cases hc : s.cur with
        | none => simpa using h1
        | some c => simpa using histPush_length_le c h1
      · simp only [List.length_dropLast]
        omega

theorem applyOps_bounded {α : Type} (s : HState α) (ops : List (HistOp α))
    (h : histBounded s) : histBounded (applyOps s ops) := by
  induction ops generalizing s with
  | nil => exact h
  | cons op rest ih => exact ih (applyOp s op) (applyOp_bounded op h)

/-! ## Claims -/

/-- Claim C5: for every sequence of push/undo/redo operations the undo and redo
stacks each hold at most `maxHistory = 10` snapshots at all times (any prefix of
any operation sequence from a bounded state stays bounded), eviction is FIFO at
index 0, and after `maxHistory + 5` sequential pushes the undo stack holds
exactly the most recent `maxHistory` pushed images. -/
theorem history_bound_spec :
    (∀ (s : HState ℕ) (ops : List (HistOp ℕ)), histBounded s →
      histBounded (applyOps s ops)) ∧
    (∀ xs : List ℕ, xs.length = maxHistory + 5 →
      List.foldl histPush ([] : List ℕ) xs = xs.drop 5 ∧
      (List.foldl histPush ([] : List ℕ) xs).length = maxHistory) := by
  refine ⟨applyOps_bounded, ?_⟩
  intro xs hlen
  have h := histPush_foldl_drop xs
  have h5 : xs.length - maxHistory = 5 := by omega
  rw [h5] at h
  refine ⟨h, ?_⟩
  rw [h]
  simp only [List.length_drop]
  omega

/-- Claim C5 witness: fifteen concrete pushes retain exactly the last ten. -/
theorem history_bound_spec_witness :
    histBounded (applyOps (⟨some 0, [], []⟩ : HState ℕ)
      [HistOp.edit 1, HistOp.edit 2, HistOp.undo, HistOp.redo]) ∧
    List.foldl histPush ([] : List ℕ)
      [1, 2, 3, 4, 5, 6, 7, 8, 9, 10, 11, 12, 13, 14, 15] =
      [6, 7, 8, 9, 10, 11, 12, 13, 14, 15] :=
  ⟨(history_bound_spec.1 ⟨some 0, [], []⟩
      [HistOp.edit 1, HistOp.edit 2, HistOp.undo, HistOp.redo] ⟨by decide, by decide⟩),
   by
    have h := (history_bound_spec.2
      [1, 2, 3, 4, 5, 6, 7, 8, 9, 10, 11, 12, 13, 14, 15] (by decide)).1
    simpa using h⟩

/-- Claim C6: a push with an image loaded clears the redo stack, and a
subsequent redo request reports `HistoryEmpty` (the flag of `redoStep`) without
changing the session state; the same holds for a full edit step. -/
theorem push_invalidates_redo (s : HState ℕ) (c r : ℕ) (h : s.cur = some c) :
    (push_history s).redoHist = [] ∧
    redoStep (push_history s) = (push_history s, true) ∧
    (applyOp s (HistOp.edit r)).redoHist = [] ∧
    redoStep (applyOp s (HistOp.edit r)) = (applyOp s (HistOp.edit r), true) := by
  refine ⟨?_, ?_, ?_, ?_⟩ <;> simp [push_history, applyOp, redoStep, h]

/-- Claim C6 witness. -/
theorem push_invalidates_redo_witness :
    (push_history (⟨some 3, [1], [2]⟩ : HState ℕ)).redoHist = [] ∧
    redoStep (push_history (⟨some 3, [1], [2]⟩ : HState ℕ)) =
      (push_history ⟨some 3, [1], [2]⟩, true) ∧
    (applyOp (⟨some 3, [1], [2]⟩ : HState ℕ) (HistOp.edit 9)).redoHist = [] ∧
    redoStep (applyOp (⟨some 3, [1], [2]⟩ : HState ℕ) (HistOp.edit 9)) =
      (applyOp ⟨some 3, [1], [2]⟩ (HistOp.edit 9), true) :=
  push_invalidates_redo ⟨some 3, [1], [2]⟩ 3 9 rfl

/-- Claim C1 counterexample: the claim "at every reachable state there is at most
one in-flight operation" is false — two consecutive edit requests without an
intervening completion give a reachable state with two in-flight workers,
because `apply_scale`/`apply_rotate`/... never join the running worker. -/
theorem no_wait_counterexample :
    ¬ (∀ es : List (SEvent ℕ),
        (sessionRun ⟨some 0, [], [], []⟩ es).pendingResults.length ≤ 1) := by
  intro hcl
  exact absurd (hcl [SEvent.requestEdit 1, SEvent.requestEdit 2]) (by decide)

/-- Claim C1 (amended): requesting a new edit while a worker is in flight does
not wait for it: the request immediately pushes history, clears the redo stack
and starts another worker, so the number of in-flight operations grows by one
even when it was already positive. -/
theorem edit_request_never_waits {α : Type} (s : WSession α) (c : α) (r : α)
    (h : s.cur = some c) :
    sessionStep s (SEvent.requestEdit r) =
      { s with
        hist := histPush s.hist c
        redoHist := []
        pendingResults := s.pendingResults ++ [r] } ∧
    (sessionStep s (SEvent.requestEdit r)).pendingResults.length =
      s.pendingResults.length + 1 := by
  refine ⟨?_, ?_⟩ <;> simp [sessionStep, h]

/-- Claim C1 witness: a second edit request on a session with one in-flight
worker goes through immediately, giving two in-flight workers. -/
theorem edit_request_never_waits_witness :
    sessionStep (⟨some 0, [], [], [5]⟩ : WSession ℕ) (SEvent.requestEdit 7) =
      ⟨some 0, histPush [] 0, [], [5] ++ [7]⟩ ∧
    (sessionStep (⟨some 0, [], [], [5]⟩ : WSession ℕ)
        (SEvent.requestEdit 7)).pendingResults.length = [5].length + 1 :=
  edit_request_never_waits ⟨some 0, [], [], [5]⟩ 0 7 rfl

/-- Claim C7: a crop request whose rectangle lies fully inside the current image
produces an image of exactly the requested size, a following undo restores the
original image, and for arbitrary integer parameters the cropped size is clamped
into `[1, w] × [1, h]`. -/
theorem crop_spec :
    (∀ w h left top wi hi : ℤ, 0 ≤ left → 0 ≤ top → 1 ≤ wi → 1 ≤ hi →
      left + wi ≤ w → top + hi ≤ h → cropDims w h left top wi hi = (wi, hi)) ∧
    (∀ (s : HState (ℤ × ℤ)) (w h left top wi hi : ℤ), s.cur = some (w, h) →
      0 ≤ left → 0 ≤ top → 1 ≤ wi → 1 ≤ hi → left + wi ≤ w → top + hi ≤ h →
      (apply_crop_rect s left top wi hi).cur = some (wi, hi) ∧
      (undoStep (apply_crop_rect s left top wi hi)).1.cur = some (w, h)) ∧
    (∀ w h left top wi hi : ℤ, 1 ≤ w → 1 ≤ h →
      1 ≤ (cropDims w h left top wi hi).1 ∧ (cropDims w h left top wi hi).1 ≤ w ∧
      1 ≤ (cropDims w h left top wi hi).2 ∧ (cropDims w h left top wi hi).2 ≤ h) := by
  have hexact : ∀ w h left top wi hi : ℤ, 0 ≤ left → 0 ≤ top → 1 ≤ wi → 1 ≤ hi →
      left + wi ≤ w → top + hi ≤ h → cropDims w h left top wi hi = (wi, hi) := by
    intro w h left top wi hi h1 h2 h3 h4 h5 h6
    simp only [cropDims, Prod.mk.injEq]
    constructor <;> omega
  refine ⟨hexact, ?_, ?_⟩
  · intro s w h left top wi hi hcur h1 h2 h3 h4 h5 h6
    have hl : max 0 (min left (w - 1)) = left := by omega
    have ht : max 0 (min top (h - 1)) = top := by omega
    have hw : max 1 (min wi (w - left)) = wi := by omega
    have hh : max 1 (min hi (h - top)) = hi := by omega
    simp only [apply_crop_rect, hcur, hl, ht]
    simp only [hw, hh]
    rw [hexact w h left top wi hi h1 h2 h3 h4 h5 h6]
    refine ⟨rfl, ?_⟩
    simp only [undoStep, histPush_getLast]
  · intro w h left top wi hi hw hh
    simp only [cropDims]
    refine ⟨by omega, by omega, by omega, by omega⟩

/-- Claim C7 witness: cropping `(100, 100, 200, 150)` out of an 800×600 image
yields a 200×150 image and undo restores the 800×600 one. -/
theorem crop_spec_witness :
    cropDims 800 600 100 100 200 150 = (200, 150) ∧
    (apply_crop_rect (⟨some (800, 600), [], []⟩ : HState (ℤ × ℤ))
        100 100 200 150).cur = some (200, 150) ∧
    (undoStep (apply_crop_rect (⟨some (800, 600), [], []⟩ : HState (ℤ × ℤ))
        100 100 200 150)).1.cur = some (800, 600) ∧
    1 ≤ (cropDims 800 600 (-7) 20 0 9999).1 ∧ (cropDims 800 600 (-7) 20 0 9999).1 ≤ 800 :=
  have h2 := crop_spec.2.1 ⟨some (800, 600), [], []⟩ 800 600 100 100 200 150 rfl
    (by decide) (by decide) (by decide) (by decide) (by decide) (by decide)
  have h3 := crop_spec.2.2 800 600 (-7) 20 0 9999 (by decide) (by decide)
  ⟨crop_spec.1 800 600 100 100 200 150 (by decide) (by decide) (by decide)
    (by decide) (by decide) (by decide), h2.1, h2.2, h3.1, h3.2.1⟩

/-- Claim C9 counterexample: a zero-area crop request (width 0) is not rejected —
`apply_crop_rect` clamps the width up to 1, pushes a history entry and commits a
cropped image, mutating the session state. -/
theorem zero_area_crop_not_rejected :
    (apply_crop (⟨some (800, 600), [], []⟩ : HState (ℤ × ℤ))
        (some 0) (some 0) (some 0) (some 10)).1.hist = [(800, 600)] ∧
    (apply_crop (⟨some (800, 600), [], []⟩ : HState (ℤ × ℤ))
        (some 0) (some 0) (some 0) (some 10)).1.cur = some (1, 10) ∧
    (⟨some (800, 600), [], []⟩ : HState (ℤ × ℤ)).hist = [] := by
  refine ⟨?_, ?_, rfl⟩ <;> decide

/-- Claim C9 (amended): non-numeric crop bounds are rejected before any state
mutation (no history push, warning shown when an image is loaded), but a
zero-area rectangle is not rejected: its width is clamped up to 1, a history
entry is pushed and the crop is applied. -/
theorem crop_invalid_input_spec :
    (∀ (s : HState (ℤ × ℤ)) (lT tT wT hT : Option ℤ),
      lT = none ∨ tT = none ∨ wT = none ∨ hT = none →
      (apply_crop s lT tT wT hT).1 = s ∧
      (s.cur ≠ none → (apply_crop s lT tT wT hT).2 = true)) ∧
    (∀ (s : HState (ℤ × ℤ)) (w h hi : ℤ), s.cur = some (w, h) → 1 ≤ w → 1 ≤ h →
      1 ≤ hi → hi ≤ h →
      apply_crop s (some 0) (some 0) (some 0) (some hi) =
        (⟨some (1, hi), histPush s.hist (w, h), []⟩, false)) := by
  constructor
  · intro s lT tT wT hT hnone
    cases hc : s.cur with
    | none => simp [apply_crop, hc]
    | some c =>
      rcases hnone with rfl | rfl | rfl | rfl <;>
        [skip; cases lT; (cases lT <;> cases tT); (cases lT <;> cases tT <;> cases wT)] <;>
        simp [apply_crop, hc]
  · intro s w h hi hcur h1 h2 h3 h4
    have hl : max 0 (min (0 : ℤ) (w - 1)) = 0 := by omega
    have ht : max 0 (min (0 : ℤ) (h - 1)) = 0 := by omega
    have hw : max 1 (min (0 : ℤ) (w - 0)) = 1 := by omega
    have hh : max 1 (min hi (h - 0)) = hi := by omega
    have hcrop : cropDims w h 0 0 1 hi = (1, hi) := by
      simp only [cropDims, Prod.mk.injEq]
      constructor <;> omega
    simp only [apply_crop, hcur, apply_crop_rect, hl, ht]
    simp only [hw, hh, hcrop]

/-- Claim C9 witness. -/
theorem crop_invalid_input_spec_witness :
    ((apply_crop (⟨some (800, 600), [(2, 2)], [(3, 3)]⟩ : HState (ℤ × ℤ))
        none (some 1) (some 2) (some 3)).1 = ⟨some (800, 600), [(2, 2)], [(3, 3)]⟩ ∧
      ((⟨some (800, 600), [(2, 2)], [(3, 3)]⟩ : HState (ℤ × ℤ)).cur ≠ none →
        (apply_crop (⟨some (800, 600), [(2, 2)], [(3, 3)]⟩ : HState (ℤ × ℤ))
          none (some 1) (some 2) (some 3)).2 = true)) ∧
    apply_crop (⟨some (800, 600), [], []⟩ : HState (ℤ × ℤ))
        (some 0) (some 0) (some 0) (some 10) =
      (⟨some (1, 10), histPush [] (800, 600), []⟩, false) :=
  ⟨crop_invalid_input_spec.1 ⟨some (800, 600), [(2, 2)], [(3, 3)]⟩
      none (some 1) (some 2) (some 3) (Or.inl rfl),
   crop_invalid_input_spec.2 ⟨some (800, 600), [], []⟩ 800 600 10 rfl
      (by decide) (by decide) (by decide) (by decide)⟩

/-- Claim C10: `ImageTools.scale` always produces dimensions
`max(1, int(w*factor))` and `max(1, int(h*factor))`, which are at least 1 for
every (finite) factor, including zero and negative ones — the underlying resize
is never invoked with a non-positive dimension. -/
theorem scale_dims_spec (w h : ℤ) (factor : ℚ) :
    scaleDims w h factor =
      (max 1 (pyInt ((w : ℚ) * factor)), max 1 (pyInt ((h : ℚ) * factor))) ∧
    1 ≤ (scaleDims w h factor).1 ∧ 1 ≤ (scaleDims w h factor).2 :=
  ⟨rfl, le_max_left 1 _, le_max_left 1 _⟩

/-- Claim C3 counterexample: `screen_to_image_coords` can return `None` with an
image loaded — a 1×1 image at zoom 0.5 scales to an empty pixmap
(`int(1*0.5) = 0`), so the function falls through to `return None` although
`self._original_pixmap is not None`.  The "`None` iff no image" claim is false. -/
theorem screen_to_image_none_with_image :
    screen_to_image_coords ⟨some (1, 1), 1/2, 0, 0, 0, 100, 100⟩ 0 0 = none ∧
    (⟨some (1, 1), 1/2, 0, 0, 0, 100, 100⟩ : LabelState).pix ≠ none := by
  constructor
  · norm_num [screen_to_image_coords, qtScaledDims, pyInt, pyFloorDiv]
  · simp

/-- Claim C3 (amended): `screen_to_image_coords` is total; it returns `None`
when no image is loaded, and with a loaded image it returns `None` exactly when
the displayed (scaled) pixmap is empty; otherwise it returns a point clamped
into `[0, w-1] × [0, h-1]` for every screen point, including points outside the
displayed bitmap. -/
theorem screen_to_image_total_spec (st : LabelState) :
    (st.pix = none → ∀ sx sy : ℤ, screen_to_image_coords st sx sy = none) ∧
    (∀ (w h sx sy : ℤ), st.pix = some (w, h) →
      (screen_to_image_coords st sx sy = none ↔
        (qtScaledDims w h (pyInt ((w : ℚ) * st.zoom)) (pyInt ((h : ℚ) * st.zoom))).1 ≤ 0 ∨
        (qtScaledDims w h (pyInt ((w : ℚ) * st.zoom)) (pyInt ((h : ℚ) * st.zoom))).2 ≤ 0)) ∧
    (∀ (w h sx sy : ℤ), st.pix = some (w, h) → 1 ≤ w → 1 ≤ h →
      ∀ p : ℤ × ℤ, screen_to_image_coords st sx sy = some p →
        0 ≤ p.1 ∧ p.1 ≤ w - 1 ∧ 0 ≤ p.2 ∧ p.2 ≤ h - 1) := by
  refine ⟨?_, ?_, ?_⟩
  · intro hpix sx sy
    simp [screen_to_image_coords, hpix]
  · intro w h sx sy hpix
    simp only [screen_to_image_coords, hpix]
    split
    · rename_i hpos
      simp only [reduceCtorEq, false_iff]
      omega
    · rename_i hpos
      simp only [true_iff]
      omega
  · intro w h sx sy hpix hw hh p hp
    simp only [screen_to_image_coords, hpix] at hp
    split at hp
    · injection hp with hp
      subst hp
      refine ⟨?_, ?_, ?_, ?_⟩ <;> simp <;> omega
    · exact absurd hp (by simp)

/-- Claim C3 witness. -/
theorem screen_to_image_total_spec_witness :
    screen_to_image_coords ⟨none, 1, 0, 0, 0, 100, 100⟩ 5 5 = none ∧
    (0 : ℤ) ≤ 210 ∧ (210 : ℤ) ≤ 800 - 1 ∧ (0 : ℤ) ≤ 160 ∧ (160 : ℤ) ≤ 600 - 1 :=
  ⟨(screen_to_image_total_spec ⟨none, 1, 0, 0, 0, 100, 100⟩).1 rfl 5 5,
   by
    simpa using
      (screen_to_image_total_spec ⟨some (800, 600), 1, 0, 0, 0, 400, 300⟩).2.2
        800 600 10 10 rfl (by norm_num) (by norm_num) (210, 160)
        (by norm_num [screen_to_image_coords, qtScaledDims, pyInt, pyRound, pyFloorDiv])⟩

/-- Claim C8 counterexample: committing an edit result resets the view — with
zoom 2.0 and pan offset (10, 0) before the edit (and the scale slider at 100%),
`on_worker_finished` leaves the label at zoom 1.0 and offset (0, 0), because
`update_preview` re-sets the original pixmap, which resets zoom/pan/rotation. -/
theorem commit_resets_view_counterexample :
    (on_worker_finished ⟨some (4, 3), ⟨some (4, 3), 2, 10, 0, 0, 400, 300⟩, 100, 0⟩
        (5, 5)).label.zoom = 1 ∧
    (on_worker_finished ⟨some (4, 3), ⟨some (4, 3), 2, 10, 0, 0, 400, 300⟩, 100, 0⟩
        (5, 5)).label.offX = 0 ∧
    ¬ ((on_worker_finished ⟨some (4, 3), ⟨some (4, 3), 2, 10, 0, 0, 400, 300⟩, 100, 0⟩
          (5, 5)).label.zoom =
        (⟨some (4, 3), ⟨some (4, 3), 2, 10, 0, 0, 400, 300⟩, 100, 0⟩ : AppState).label.zoom ∧
        (on_worker_finished ⟨some (4, 3), ⟨some (4, 3), 2, 10, 0, 0, 400, 300⟩, 100, 0⟩
          (5, 5)).label.offX =
        (⟨some (4, 3), ⟨some (4, 3), 2, 10, 0, 0, 400, 300⟩, 100, 0⟩ : AppState).label.offX) := by
  refine ⟨?_, ?_, ?_⟩ <;>
    norm_num [on_worker_finished, update_preview, set_original_pixmap,
      set_preview_rotate_angle]

/-- Claim C8 (amended): committing an edit result does reset the view state —
`update_preview` re-sets the original pixmap, resetting zoom to 1, pan to (0,0)
and preview rotation to 0, then re-derives zoom from the scale slider (only when
it is not at 100%) and rotation from the spin box (only when nonzero).  The
post-commit view state therefore depends only on the widget values and label
size, never on the pre-edit zoom/pan/rotation. -/
theorem commit_view_reset_spec :
    (∀ (s : AppState) (img : ℤ × ℤ), s.slider = 100 → s.rotSpin = 0 →
      (on_worker_finished s img).label =
        ⟨some img, 1, 0, 0, 0, s.label.labelW, s.label.labelH⟩) ∧
    (∀ (s1 s2 : AppState) (img : ℤ × ℤ), s1.slider = s2.slider →
      s1.rotSpin = s2.rotSpin → s1.label.labelW = s2.label.labelW →
      s1.label.labelH = s2.label.labelH →
      (on_worker_finished s1 img).label = (on_worker_finished s2 img).label) := by
  constructor
  · intro s img h100 h0
    simp [on_worker_finished, update_preview, h100, h0, set_original_pixmap]
  · intro s1 s2 img hs hr hW hH
    obtain ⟨c1, ⟨p1, z1, ox1, oy1, rt1, lw1, lh1⟩, sl1, rs1⟩ := s1
    obtain ⟨c2, ⟨p2, z2, ox2, oy2, rt2, lw2, lh2⟩, sl2, rs2⟩ := s2
    simp only at hs hr hW hH
    subst hs hr hW hH
    simp [on_worker_finished, update_preview, set_original_pixmap]

/-- Claim C8 witness. -/
theorem commit_view_reset_spec_witness :
    (on_worker_finished ⟨some (4, 3), ⟨some (4, 3), 2, 10, 7, 45, 400, 300⟩, 100, 0⟩
        (5, 5)).label = ⟨some (5, 5), 1, 0, 0, 0, 400, 300⟩ ∧
    (on_worker_finished ⟨some (4, 3), ⟨some (4, 3), 2, 10, 7, 45, 400, 300⟩, 120, 30⟩
        (5, 5)).label =
      (on_worker_finished ⟨some (9, 9), ⟨none, 5, -3, 4, 90, 400, 300⟩, 120, 30⟩
        (5, 5)).label :=
  ⟨by
    simpa using commit_view_reset_spec.1
      ⟨some (4, 3), ⟨some (4, 3), 2, 10, 7, 45, 400, 300⟩, 100, 0⟩ (5, 5) rfl rfl,
   commit_view_reset_spec.2
      ⟨some (4, 3), ⟨some (4, 3), 2, 10, 7, 45, 400, 300⟩, 120, 30⟩
      ⟨some (9, 9), ⟨none, 5, -3, 4, 90, 400, 300⟩, 120, 30⟩ (5, 5) rfl rfl rfl rfl⟩

/-- Claim C2 counterexample: pivot invariance can be off by more than 1 pixel.
With an 800×600 image at zoom 0.333 in a 400×300 label and pivot (200, 150),
the pivot resolves to image x = 402 before zooming in and to x = 399 after —
a 3 pixel drift, caused by `zoom_at_point` using `int(w*zoom)` while
`screen_to_image_coords` uses the aspect-fitted scaled-pixmap width. -/
theorem zoom_pivot_counterexample :
    screen_to_image_coords ⟨some (800, 600), 333/1000, 0, 0, 0, 400, 300⟩
        200 150 = some (402, 302) ∧
    screen_to_image_coords
        (zoom_at_point ⟨some (800, 600), 333/1000, 0, 0, 0, 400, 300⟩ 200 150 true)
        200 150 = some (399, 302) ∧
    ¬ ((402 : ℤ) - 399 ≤ 1) := by
  refine ⟨?_, ?_, by decide⟩
  · norm_num [screen_to_image_coords, qtScaledDims, pyInt, pyRound, pyFloorDiv]
  · norm_num [screen_to_image_coords, zoom_at_point, nextZoom, pyAbs, qtScaledDims,
      pyInt, pyRound, pyFloorDiv]

/-- Claim C2 (amended): pivot invariance holds — exactly, not merely within one
pixel — whenever the displayed pixmap's aspect-fitted dimensions coincide with
the truncated targets `int(w*zoom) × int(h*zoom)` (and these are positive) at
both the old and the new zoom; in general the aspect fitting can shift the
result by several pixels (see the counterexample). -/
theorem zoom_pivot_invariance (w h px py lw lh : ℤ) (z ox oy rt : ℚ) (zi : Bool)
    (hsw : qtScaledDims w h (pyInt ((w : ℚ) * z)) (pyInt ((h : ℚ) * z)) =
      (pyInt ((w : ℚ) * z), pyInt ((h : ℚ) * z)))
    (hswpos : 0 < pyInt ((w : ℚ) * z)) (hshpos : 0 < pyInt ((h : ℚ) * z))
    (hnsw : qtScaledDims w h (pyInt ((w : ℚ) * nextZoom z zi))
        (pyInt ((h : ℚ) * nextZoom z zi)) =
      (pyInt ((w : ℚ) * nextZoom z zi), pyInt ((h : ℚ) * nextZoom z zi)))
    (hnswpos : 0 < pyInt ((w : ℚ) * nextZoom z zi))
    (hnshpos : 0 < pyInt ((h : ℚ) * nextZoom z zi)) :
    screen_to_image_coords
        (zoom_at_point ⟨some (w, h), z, ox, oy, rt, lw, lh⟩ px py zi) px py =
      screen_to_image_coords ⟨some (w, h), z, ox, oy, rt, lw, lh⟩ px py := by
  have hswq : ((pyInt ((w : ℚ) * z) : ℤ) : ℚ) ≠ 0 := by
    exact_mod_cast ne_of_gt (by exact_mod_cast hswpos)
  have hshq : ((pyInt ((h : ℚ) * z) : ℤ) : ℚ) ≠ 0 := by
    exact_mod_cast ne_of_gt (by exact_mod_cast hshpos)
  have hnswq : ((pyInt ((w : ℚ) * nextZoom z zi) : ℤ) : ℚ) ≠ 0 := by
    exact_mod_cast ne_of_gt (by exact_mod_cast hnswpos)
  have hnshq : ((pyInt ((h : ℚ) * nextZoom z zi) : ℤ) : ℚ) ≠ 0 := by
    exact_mod_cast ne_of_gt (by exact_mod_cast hnshpos)
  simp only [zoom_at_point]
  split
  · rfl
  · simp only [screen_to_image_coords, hsw, hnsw]
    rw [if_pos ⟨hnswpos, hnshpos⟩, if_pos ⟨hswpos, hshpos⟩,
      if_pos ⟨hswpos, hshpos⟩, if_pos ⟨hswpos, hshpos⟩]
    simp only [Option.some.injEq, Prod.mk.injEq]
    constructor
    · congr 3
      field_simp
      ring
    · congr 3
      field_simp
      ring

/-- Claim C2 witness: square image, integral scaled sizes, concrete pivot. -/
theorem zoom_pivot_invariance_witness :
    screen_to_image_coords
        (zoom_at_point ⟨some (100, 100), 1, 0, 0, 0, 400, 400⟩ 30 40 true) 30 40 =
      screen_to_image_coords ⟨some (100, 100), 1, 0, 0, 0, 400, 400⟩ 30 40 :=
  zoom_pivot_invariance 100 100 30 40 400 400 1 0 0 0 true
    (by norm_num [qtScaledDims, pyInt])
    (by norm_num [pyInt]) (by norm_num [pyInt])
    (by norm_num [qtScaledDims, pyInt, nextZoom])
    (by norm_num [pyInt, nextZoom]) (by norm_num [pyInt, nextZoom])

/-! ## Aspect-lock helper lemmas -/

theorem clampStage_bounds {w h l0 t0 w0 h0 l t wi hi : ℤ} (hw : 1 ≤ w) (hh : 1 ≤ h)
    (he : clampStage w h l0 t0 w0 h0 = (l, t, wi, hi)) :
    0 ≤ l ∧ l + wi ≤ w ∧ 0 ≤ t ∧ t + hi ≤ h ∧ 1 ≤ wi ∧ 1 ≤ hi := by
  simp only [clampStage, Prod.mk.injEq] at he
  obtain ⟨h1, h2, h3, h4⟩ := he
  subst h1 h2 h3 h4
  refine ⟨?_, ?_, ?_, ?_, ?_, ?_⟩ <;> omega

theorem finalRatioFix_keeps_corner (w h : ℤ) (aspect : Option ℚ) (l t wi hi : ℤ) :
    (finalRatioFix w h aspect (l, t, wi, hi)).1 = l ∧
    (finalRatioFix w h aspect (l, t, wi, hi)).2.1 = t := by
  cases aspect with
  | none => exact ⟨rfl, rfl⟩
  | some a =>
    simp only [finalRatioFix]
    split_ifs <;> simp

theorem finalRatioFix_id_of_close {a : ℚ} (w h : ℤ) {l t wi hi : ℤ} (hpos : 0 < hi)
    (hclose : pyAbs ((wi : ℚ) / (hi : ℚ) - a) ≤ 1/100) :
    finalRatioFix w h (some a) (l, t, wi, hi) = (l, t, wi, hi) := by
  simp only [finalRatioFix]
  rw [if_pos hpos, if_neg (not_lt.2 hclose)]

/-- Claim C4 counterexample: with aspect ratio 4:3 locked, an 800×600 image at
zoom 1 in a 400×300 label and the committed screen rectangle with corners
(100, 80)-(107, 84), `screen_rect_to_image_rect` returns the rectangle
(300, 230, 7, 5), whose ratio 7/5 differs from 4/3 by 1/15 ≥ 0.01 — the
final ratio re-check rounds back to the same violating width. -/
theorem aspect_lock_counterexample :
    screen_rect_to_image_rect ⟨some (800, 600), 1, 0, 0, 0, 400, 300⟩ (some (4/3))
        100 80 107 84 = some (300, 230, 7, 5) ∧
    ¬ (pyAbs ((7 : ℚ) / 5 - 4/3) < 1/100) := by
  constructor
  · norm_num [screen_rect_to_image_rect, aspectAdjustFloat, boundShift, boundShrink,
      clampStage, finalRatioFix, qtScaledDims, pyInt, pyRound, pyFloorDiv, cppDiv, pyAbs]
  · norm_num [pyAbs]

/-- Claim C4 (amended): every non-`None` rectangle committed under a locked
aspect ratio is the image of an in-bounds rectangle (`0 ≤ l`, `l + wi ≤ w`,
`0 ≤ t`, `t + hi ≤ h`, `wi, hi ≥ 1`) under the final ratio re-check, which
preserves `left`/`top` and is the identity whenever that rectangle's ratio is
already within 0.01 of the locked ratio — in which case the committed rectangle
is in-bounds with sizes ≥ 1 and ratio within tolerance.  When the re-check does
fire, its rounding can leave the committed ratio off by more than 0.01 (see the
counterexample). -/
theorem aspect_lock_partial_spec (w h lw lh x1 y1 x2 y2 : ℤ) (z ox oy rt a : ℚ)
    (hw : 1 ≤ w) (hh : 1 ≤ h)
    (hres : screen_rect_to_image_rect ⟨some (w, h), z, ox, oy, rt, lw, lh⟩ (some a)
      x1 y1 x2 y2 ≠ none) :
    ∃ l t wi hi : ℤ,
      screen_rect_to_image_rect ⟨some (w, h), z, ox, oy, rt, lw, lh⟩ (some a)
          x1 y1 x2 y2 = some (finalRatioFix w h (some a) (l, t, wi, hi)) ∧
      0 ≤ l ∧ l + wi ≤ w ∧ 0 ≤ t ∧ t + hi ≤ h ∧ 1 ≤ wi ∧ 1 ≤ hi ∧
      (finalRatioFix w h (some a) (l, t, wi, hi)).1 = l ∧
      (finalRatioFix w h (some a) (l, t, wi, hi)).2.1 = t ∧
      (pyAbs ((wi : ℚ) / (hi : ℚ) - a) ≤ 1/100 →
        finalRatioFix w h (some a) (l, t, wi, hi) = (l, t, wi, hi)) := by
  simp only [screen_rect_to_image_rect] at hres ⊢
  split at hres
  · exact absurd rfl hres
  · rename_i hcond1
    split at hres
    · rename_i hcond2
      split at hres
      · exact absurd rfl hres
      · rename_i hcond3
        rw [if_neg hcond1, if_pos hcond2, if_neg hcond3]
        refine ⟨_, _, _, _, rfl, ?_, ?_, ?_, ?_, ?_, ?_, ?_, ?_, ?_⟩
        · omega
        · omega
        · omega
        · omega
        · omega
        · omega
        · exact (finalRatioFix_keeps_corner w h (some a) _ _ _ _).1
        · exact (finalRatioFix_keeps_corner w h (some a) _ _ _ _).2
        · intro hclose
          exact finalRatioFix_id_of_close w h (by omega) hclose
    · exact absurd rfl hres

/-- Claim C4 witness: the committed rectangle of the counterexample state is in
range of the final re-check applied to an in-bounds clamped rectangle. -/
theorem aspect_lock_partial_spec_witness :
    ∃ l t wi hi : ℤ,
      screen_rect_to_image_rect ⟨some (800, 600), 1, 0, 0, 0, 400, 300⟩ (some (4/3))
          100 80 107 84 = some (finalRatioFix 800 600 (some (4/3)) (l, t, wi, hi)) ∧
      0 ≤ l ∧ l + wi ≤ 800 ∧ 0 ≤ t ∧ t + hi ≤ 600 ∧ 1 ≤ wi ∧ 1 ≤ hi ∧
      (finalRatioFix 800 600 (some (4/3)) (l, t, wi, hi)).1 = l ∧
      (finalRatioFix 800 600 (some (4/3)) (l, t, wi, hi)).2.1 = t ∧
      (pyAbs ((wi : ℚ) / (hi : ℚ) - 4/3) ≤ 1/100 →
        finalRatioFix 800 600 (some (4/3)) (l, t, wi, hi) = (l, t, wi, hi)) :=
  aspect_lock_partial_spec 800 600 400 300 100 80 107 84 1 0 0 0 (4/3)
    (by norm_num) (by norm_num)
    (by
      norm_num [screen_rect_to_image_rect, aspectAdjustFloat, boundShift, boundShrink,
        clampStage, finalRatioFix, qtScaledDims, pyInt, pyRound, pyFloorDiv, cppDiv, pyAbs]
      decide)

end ImageProc
